import Mathlib

/-!
# Verification of the UniFi Automated Consoles Backup orchestration core

A shallow embedding of the task-orchestration and session-validity core of
`UniFi_Automated_Consoles_Backup.py`: the per-console backup attempt, the
three-pass retry ladder of `scheduled_backup_job_logic`, the duplicate-submission
guard of `scheduled_backup_job`, the connectivity probe, the schedule-config
clamp of `update_schedule`, the worker's post-task Chrome cleanup, console
id assignment in `add_console` / `remove_console`, and the next-backup
countdown published by `status_stream`.

External effects (Selenium, the filesystem, timers) are modelled by explicit
outcome parameters: a `DriverOutcome` says what the browser automation did
during one attempt, and pure state (consoles, the `master_logged_in` flag,
appended log messages, sleeps) is threaded explicitly.
-/

/-! ## Definitions: the embedded operations of the program -/

/-- A managed console record, as stored in `appdata["consoles"]`:
`{"id": …, "name": …, "backup_url": …, "last_backup_status": …, "last_backup_time": …}`. -/
structure Console where
  id : Nat
  name : String
  backup_url : String
  last_backup_status : String
  last_backup_time : Option String

deriving Repr, DecidableEq

/-- What the browser automation did during one backup attempt, abstracting the
Selenium session in `attempt_console_backup`:
`authRedirect` = the console page forced a redirect to `/login` or `/mfa`;
`noArtifact` = no `.unf`/`.tar.gz` file appeared within the 60 s poll;
`driverError e` = an exception was raised by the driver (caught by the handler);
`artifact f` = the download produced file `f`. -/
inductive DriverOutcome where
  | authRedirect
  | noArtifact
  | driverError (msg : String)
  | artifact (fname : String)

deriving Repr, DecidableEq

/-- Result of one `attempt_console_backup` call: the updated console record, the
`master_logged_in` flag afterwards, the app-log messages appended, whether
`kill_leftover_chrome_processes` was invoked, and the boolean return value. -/
structure AttemptResult where
  console : Console
  loggedIn : Bool
  logs : List String
  cleaned : Bool
  ok : Bool

deriving Repr, DecidableEq

/-- `attempt_console_backup(console)` from the source: if not logged in, record a
failure status and return False; on a forced `/login`/`/mfa` redirect, record the
cookie failure, set `master_logged_in = False`, kill Chrome, return False; if no
backup file appears, record that failure; on an exception, record `Fail: {e}` and
kill Chrome; on success, record `Success` and the timestamp and return True. -/
def attempt_console_backup (loggedIn : Bool) (c : Console) (out : DriverOutcome)
    (now : String) : AttemptResult :=
  if loggedIn = false then
    { console := { c with last_backup_status := "Fail: Not logged in" },
      loggedIn := loggedIn,
      logs := ["Backup => '" ++ c.name ++ "' => Not logged in => fail."],
      cleaned := false, ok := false }
  else
    match out with
    | .authRedirect =>
      { console := { c with last_backup_status := "Fail: forced login => cookies invalid" },
        loggedIn := false,
        logs := ["Backup => '" ++ c.name ++ "' => forced login => set master_logged_in=False"],
        cleaned := true, ok := false }
    | .noArtifact =>
      { console := { c with last_backup_status := "Fail: no .unf or .tar.gz after 60s" },
        loggedIn := loggedIn,
        logs := ["Backup => '" ++ c.name ++ "' => no .unf/.tar.gz => fail."],
        cleaned := false, ok := false }
    | .driverError e =>
      { console := { c with last_backup_status := "Fail: " ++ e },
        loggedIn := loggedIn,
        logs := ["Backup => '" ++ c.name ++ "' => exception => " ++ e],
        cleaned := true, ok := false }
    | .artifact f =>
      { console := { c with last_backup_status := "Success", last_backup_time := some now },
        loggedIn := loggedIn,
        logs := ["Backup => '" ++ c.name ++ "' => success => " ++ c.name ++ "_" ++ f],
        cleaned := false, ok := true }

/-- What the browser automation observed during one connectivity probe. -/
inductive ProbeOutcome where
  | authRedirect
  | okPage
  | probeError (msg : String)

deriving Repr, DecidableEq

/-- Result of `scheduled_connectivity_check_logic`: the `master_logged_in` flag
afterwards, the app-log messages appended, and whether an exception escaped the
function (it has no handler of its own; `worker_loop` catches it). -/
structure ProbeResult where
  loggedIn : Bool
  logs : List String
  raised : Bool

deriving Repr, DecidableEq

/-- `scheduled_connectivity_check_logic()` from the source: skip when not logged
in; on a forced `/login`/`/mfa` redirect set `master_logged_in = False`; otherwise
log success; a driver exception propagates out without touching the flag. -/
def scheduled_connectivity_check_logic (loggedIn : Bool) (out : ProbeOutcome) : ProbeResult :=
  if loggedIn = false then
    { loggedIn := loggedIn,
      logs := ["Connectivity check => not logged in => skip."], raised := false }
  else
    match out with
    | .authRedirect =>
      { loggedIn := false,
        logs := ["Connectivity check => forced login => set not logged in."], raised := false }
    | .okPage =>
      { loggedIn := loggedIn,
        logs := ["Connectivity check => success => still logged in."], raised := false }
    | .probeError _ =>
      { loggedIn := loggedIn, logs := [], raised := true }

/-- Outcome of one pass of the ladder: the console list afterwards, the
`master_logged_in` flag afterwards, the ids collected into the pass's fail list,
the attempts made as `(pass, id, returned-ok)` triples in order, and the
app-log messages appended. -/
structure PassResult where
  consoles : List Console
  loggedIn : Bool
  fails : List Nat
  attempts : List (Nat × Nat × Bool)
  logs : List String

deriving Repr

/-- Pass 1 of `scheduled_backup_job_logic`: `for c in all_cons` attempts every
console in stored order and collects the ids of the failures into `pass1_fail`. -/
def runPass1 (oracle : Nat → Nat → DriverOutcome) (now : String) :
    List Console → Bool → PassResult
  | [], li => { consoles := [], loggedIn := li, fails := [], attempts := [], logs := [] }
  | c :: rest, li =>
    let r := attempt_console_backup li c (oracle 1 c.id) now
    let pr := runPass1 oracle now rest r.loggedIn
    { consoles := r.console :: pr.consoles,
      loggedIn := pr.loggedIn,
      fails := if r.ok then pr.fails else c.id :: pr.fails,
      attempts := (1, c.id, r.ok) :: pr.attempts,
      logs := r.logs ++ pr.logs }

/-- Replace the first console whose id is `cid` (Python mutates the record found
by `next(x for x in all_cons if x["id"] == cid)` in place). -/
def updateConsole : List Console → Nat → Console → List Console
  | [], _, _ => []
  | c :: rest, cid, c2 =>
    if c.id == cid then c2 :: rest else c :: updateConsole rest cid c2

/-- The console record as it stands after a retry-pass attempt: the attempt's own
status write, overwritten with "Succeeded after retry" when the attempt returned
True (`c["last_backup_status"] = "Succeeded after retry"`). -/
def retryNewConsole (li : Bool) (c : Console) (out : DriverOutcome) (now : String) : Console :=
  let r := attempt_console_backup li c out now
  if r.ok then { r.console with last_backup_status := "Succeeded after retry" }
  else r.console

/-- A retry pass (pass 2 or 3) of `scheduled_backup_job_logic`: iterate over the
previous pass's fail-id list in order; an id with no matching console record is
skipped (`if not c: continue`); otherwise re-attempt; on success overwrite the
status with "Succeeded after retry" and log it; on failure collect the id. -/
def runRetryPass (oracle : Nat → Nat → DriverOutcome) (now : String) (p : Nat) :
    List Nat → List Console → Bool → PassResult
  | [], cons, li =>
    { consoles := cons, loggedIn := li, fails := [], attempts := [], logs := [] }
  | cid :: rest, cons, li =>
    match cons.find? (fun x => x.id == cid) with
    | none => runRetryPass oracle now p rest cons li
    | some c =>
      let r := attempt_console_backup li c (oracle p cid) now
      let cons2 := updateConsole cons cid (retryNewConsole li c (oracle p cid) now)
      let extra := if r.ok then [c.name ++ " => pass" ++ toString p ++ " => succeeded after retry"]
                   else []
      let pr := runRetryPass oracle now p rest cons2 r.loggedIn
      { consoles := pr.consoles,
        loggedIn := pr.loggedIn,
        fails := if r.ok then pr.fails else cid :: pr.fails,
        attempts := (p, cid, r.ok) :: pr.attempts,
        logs := r.logs ++ extra ++ pr.logs }

/-- The terminal-failure marking after pass 3: for each id still in `pass3_fail`,
if the console record resolves, set its status to "Failed after 3 tries" and log;
an unresolved id is skipped. Returns the console list and the log messages. -/
def markFailed3 : List Nat → List Console → List Console × List String
  | [], cons => (cons, [])
  | cid :: rest, cons =>
    match cons.find? (fun x => x.id == cid) with
    | none => markFailed3 rest cons
    | some c =>
      let cons2 := updateConsole cons cid { c with last_backup_status := "Failed after 3 tries" }
      let res := markFailed3 rest cons2
      (res.1, (c.name ++ " => failed after 3 tries.") :: res.2)

/-- Outcome of a whole `scheduled_backup_job_logic` run: final console list and
login flag, app-log messages, all attempts in order, the `time.sleep` durations
performed between passes, and the three fail sets. -/
structure RunResult where
  consoles : List Console
  loggedIn : Bool
  logs : List String
  attempts : List (Nat × Nat × Bool)
  delays : List Nat
  fails1 : List Nat
  fails2 : List Nat
  fails3 : List Nat

deriving Repr

/-- `scheduled_backup_job_logic()` from the source: abort with a log entry when
not logged in; otherwise pass 1 over all consoles, then — only while the previous
pass left failures — `time.sleep(10)` and a retry pass over exactly that fail
list, at most twice; finally mark everything still failing after pass 3 with the
terminal status. -/
def scheduled_backup_job_logic (oracle : Nat → Nat → DriverOutcome) (now : String)
    (cons : List Console) (loggedIn : Bool) : RunResult :=
  if loggedIn = false then
    { consoles := cons, loggedIn := loggedIn,
      logs := ["Scheduled backup => canceled => not logged in."],
      attempts := [], delays := [], fails1 := [], fails2 := [], fails3 := [] }
  else
    let log0 := "Scheduled backup => pass#1 for all consoles."
    let logEnd := "Scheduled backup => complete => all passes done."
    let p1 := runPass1 oracle now cons loggedIn
    if p1.fails = [] then
      { consoles := p1.consoles, loggedIn := p1.loggedIn,
        logs := log0 :: p1.logs ++ [logEnd],
        attempts := p1.attempts, delays := [],
        fails1 := [], fails2 := [], fails3 := [] }
    else
      let p2 := runRetryPass oracle now 2 p1.fails p1.consoles p1.loggedIn
      if p2.fails = [] then
        { consoles := p2.consoles, loggedIn := p2.loggedIn,
          logs := log0 :: p1.logs ++ p2.logs ++ [logEnd],
          attempts := p1.attempts ++ p2.attempts, delays := [10],
          fails1 := p1.fails, fails2 := [], fails3 := [] }
      else
        let p3 := runRetryPass oracle now 3 p2.fails p2.consoles p2.loggedIn
        let m := markFailed3 p3.fails p3.consoles
        { consoles := m.1, loggedIn := p3.loggedIn,
          logs := log0 :: p1.logs ++ p2.logs ++ p3.logs ++ m.2 ++ [logEnd],
          attempts := p1.attempts ++ p2.attempts ++ p3.attempts, delays := [10, 10],
          fails1 := p1.fails, fails2 := p2.fails, fails3 := p3.fails }

/-- The end-to-end scenario of the specification: A succeeds pass 1; B fails
passes 1 and 2 and succeeds pass 3; C fails all three passes. -/
def demoOracle : Nat → Nat → DriverOutcome := fun p i =>
  if i = 1 then .artifact "a.unf"
  else if i = 2 then (if p = 3 then .artifact "b.unf" else .noArtifact)
  else .noArtifact

/-- The console list of the end-to-end scenario. -/
def demoConsoles : List Console :=
  [⟨1, "A", "uA", "Unknown", none⟩, ⟨2, "B", "uB", "Unknown", none⟩,
   ⟨3, "C", "uC", "Unknown", none⟩]

/-- Pass 1 of a run started logged in. -/
def ladderP1 (oracle : Nat → Nat → DriverOutcome) (now : String) (cons : List Console) :
    PassResult :=
  runPass1 oracle now cons true

/-- Pass 2 of a run started logged in, over pass 1's fail list. -/
def ladderP2 (oracle : Nat → Nat → DriverOutcome) (now : String) (cons : List Console) :
    PassResult :=
  runRetryPass oracle now 2 (ladderP1 oracle now cons).fails
    (ladderP1 oracle now cons).consoles (ladderP1 oracle now cons).loggedIn

/-- Pass 3 of a run started logged in, over pass 2's fail list. -/
def ladderP3 (oracle : Nat → Nat → DriverOutcome) (now : String) (cons : List Console) :
    PassResult :=
  runRetryPass oracle now 3 (ladderP2 oracle now cons).fails
    (ladderP2 oracle now cons).consoles (ladderP2 oracle now cons).loggedIn

/-- The transient `current_task_status` record: whether a task is running and
its human-readable step label. -/
structure TaskStatus where
  running : Bool
  step : String

deriving Repr, DecidableEq

/-- The batch-backup task class: labels starting with "ScheduledBackup =>", as
tested by `current_task_status["step"].startswith(...)` and
`item[0].startswith(...)` in the source. -/
def isBackupClassLabel (label : String) : Bool :=
  "ScheduledBackup =>".toList.isPrefixOf label.toList

/-- Result of a scheduler-triggered enqueue call: the queue afterwards, whether
a task was enqueued, and the app-log messages appended. -/
structure EnqueueResult where
  queue : List String
  accepted : Bool
  logs : List String

deriving Repr, DecidableEq

/-- `scheduled_backup_job()` from the source: skip, logging a conflict, when a
scheduled backup is running (running flag set and step label of the batch
class) or when any queued task label is of the batch class; otherwise enqueue
"ScheduledBackup => Pass1 => allConsoles". -/
def scheduled_backup_job (cur : TaskStatus) (queue : List String) : EnqueueResult :=
  if cur.running && isBackupClassLabel cur.step then
    { queue := queue, accepted := false,
      logs := ["Conflict: a scheduled backup is already running => skip new one."] }
  else if queue.any (fun l => isBackupClassLabel l) then
    { queue := queue, accepted := false,
      logs := ["Conflict: a scheduled backup is queued => skip new one."] }
  else
    { queue := queue ++ ["ScheduledBackup => Pass1 => allConsoles"],
      accepted := true, logs := [] }

/-- `scheduled_connectivity_check_job()` from the source: unconditionally
enqueue the "ConnectivityCheck" task — there is no guard. -/
def scheduled_connectivity_check_job (queue : List String) : EnqueueResult :=
  { queue := queue ++ ["ConnectivityCheck"], accepted := true, logs := [] }

/-- The schedule configuration (also the shape of the parsed form fields that
`update_schedule` stores): enabled flag, interval value, unit string, for the
backup job and for the connectivity check. -/
structure Schedule where
  backup_enabled : Bool
  backup_value : Int
  backup_unit : String
  check_enabled : Bool
  check_value : Int
  check_unit : String

deriving Repr, DecidableEq

/-- `update_schedule()` from the source: store every submitted field, then clamp
a minute-unit interval below 15 up to 15, flashing a warning; the write itself
always succeeds. Returns the stored schedule and the warnings flashed. -/
def update_schedule (f : Schedule) : Schedule × List String :=
  let bClamp := f.backup_unit = "minutes" ∧ f.backup_value < 15
  let cClamp := f.check_unit = "minutes" ∧ f.check_value < 15
  ({ f with
      backup_value := if bClamp then 15 else f.backup_value,
      check_value := if cClamp then 15 else f.check_value },
   (if bClamp then ["Backup interval set to minimum of 15 minutes."] else [])
     ++ (if cClamp then ["Check interval set to minimum of 15 minutes."] else []))

/-- The form fields of the clamp scenario in the specification: backup every 5
minutes (below the floor), check every 4 hours. -/
def demoForm : Schedule :=
  { backup_enabled := true, backup_value := 5, backup_unit := "minutes",
    check_enabled := true, check_value := 4, check_unit := "hours" }

/-- A process as seen by `psutil.process_iter`: pid, name, and command line. -/
structure Proc where
  pid : Nat
  name : String
  cmdline : String

deriving Repr, DecidableEq

/-- Whether `pat` occurs in `l` (the Python substring test `pat in s`). -/
def subHelper (pat : List Char) : List Char → Bool
  | [] => pat.isPrefixOf []
  | c :: rest => pat.isPrefixOf (c :: rest) || subHelper pat rest

/-- `pat in s` on lower-cased text, as in `kill_leftover_chrome_processes`. -/
def containsStr (s pat : String) : Bool :=
  subHelper pat.toList (s.toList.map Char.toLower)

/-- The process filter of `kill_leftover_chrome_processes`: the lower-cased name
or command line contains "chrome" or "chromedriver". -/
def isChromeProc (p : Proc) : Bool :=
  containsStr p.name "chrome" || containsStr p.name "chromedriver"
    || containsStr p.cmdline "chrome" || containsStr p.cmdline "chromedriver"

/-- `kill_leftover_chrome_processes()`: kill every matching process, swallowing
per-process kill errors (best-effort). Returns the surviving process list. -/
def kill_leftover_chrome_processes (procs : List Proc) : List Proc :=
  procs.filter (fun p => !(isChromeProc p))

/-- `cleanup_leftover_chrome()`: return immediately when a task is running or
the queue is non-empty; otherwise kill leftover Chrome processes. -/
def cleanup_leftover_chrome (running : Bool) (queueEmpty : Bool)
    (procs : List Proc) : List Proc :=
  if running then procs
  else if !queueEmpty then procs
  else kill_leftover_chrome_processes procs

/-- The tail of one `worker_loop` iteration: `end_task()` clears the running
flag, then `cleanup_leftover_chrome()` runs against the current queue. -/
def worker_finish_task (queue : List String) (procs : List Proc) : List Proc :=
  cleanup_leftover_chrome false queue.isEmpty procs

/-- `add_console` route: reject when the (stripped) name or URL is blank;
otherwise assign `max((c["id"] for c in consoles), default=0) + 1` and append
the new console with status "Unknown" and no timestamp. Returns the new list
and the assigned id, if any. -/
def add_console (cons : List Console) (name curl : String) :
    List Console × Option Nat :=
  if name = "" ∨ curl = "" then (cons, none)
  else
    let new_id := (cons.map (fun c => c.id)).foldr max 0 + 1
    (cons ++ [{ id := new_id, name := name, backup_url := curl,
                last_backup_status := "Unknown", last_backup_time := none }],
     some new_id)

/-- `remove_console` route: remove the first console whose id matches (a
non-matching id leaves the list unchanged). -/
def remove_console : List Console → Nat → List Console
  | [], _ => []
  | c :: rest, cid => if c.id == cid then rest else c :: remove_console rest cid

/-- One dashboard operation on the console list. -/
inductive ConsoleOp where
  | add (name curl : String)
  | remove (cid : Nat)

/-- Run a sequence of add/remove operations, recording for each successful add
the assigned id together with the ids stored just before that add. -/
def runConsoleOps : List ConsoleOp → List Console → List Console × List (Nat × List Nat)
  | [], cons => (cons, [])
  | ConsoleOp.add n u :: rest, cons =>
    let r := add_console cons n u
    let res := runConsoleOps rest r.1
    (res.1, (match r.2 with
             | some i => [(i, cons.map (fun c => c.id))]
             | none => []) ++ res.2)
  | ConsoleOp.remove cid :: rest, cons =>
    runConsoleOps rest (remove_console cons cid)

/-- The operation sequence of the id-reuse scenario: add two consoles, remove
the second, add a third. -/
def reuseOps : List ConsoleOp :=
  [ConsoleOp.add "a" "u", ConsoleOp.add "b" "u",
   ConsoleOp.remove 2, ConsoleOp.add "c" "u"]

/-- Two-digit zero padding of `f"{n:02d}"`. -/
def pad2 (n : Nat) : String := if n < 10 then "0" ++ toString n else toString n

/-- `format_timedelta` from the source, applied to a whole number of seconds:
a negative duration renders as "N/A"; otherwise days are split off and the
remainder is rendered "HH:MM:SS", comma-joined after the day part. -/
def format_timedelta (totalSeconds : Int) : String :=
  if totalSeconds < 0 then "N/A"
  else
    let ts := totalSeconds.toNat
    let hours0 := ts / 3600
    let rem := ts % 3600
    let minutes := rem / 60
    let seconds := rem % 60
    let days := hours0 / 24
    let hours := hours0 % 24
    let base := pad2 hours ++ ":" ++ pad2 minutes ++ ":" ++ pad2 seconds
    if days = 1 then "1 day, " ++ base
    else if days > 1 then toString days ++ " days, " ++ base
    else base

/-- The next-backup fields of one `status_stream` snapshot: given the delta
from now to the trigger's next run time in whole seconds (`none` when there is
no BackupJob trigger or it has no next run time), compute
`next_backup_time_seconds` (negative deltas clamped to 0) and
`next_backup_time_str`. -/
def status_next_backup (delta : Option Int) : Int × String :=
  match delta with
  | none => (0, "N/A")
  | some d => (if d < 0 then 0 else d, format_timedelta d)

/-! ## Theorems -/



example :
    (attempt_console_backup true ⟨1, "A", "u", "Unknown", none⟩ (.artifact "x.unf") "t").ok
      = true := by decide

example :
    (attempt_console_backup true ⟨1, "A", "u", "Unknown", none⟩ .authRedirect "t").loggedIn
      = false := by decide

example :
    (scheduled_backup_job_logic demoOracle "t" demoConsoles true).consoles.map
        (fun c => c.last_backup_status)
      = ["Success", "Succeeded after retry", "Failed after 3 tries"] := by decide

example :
    (scheduled_backup_job_logic demoOracle "t" demoConsoles true).attempts
      = [(1, 1, true), (1, 2, false), (1, 3, false), (2, 2, false), (2, 3, false),
         (3, 2, true), (3, 3, false)] := by decide

example :
    (scheduled_backup_job_logic demoOracle "t" demoConsoles true).delays = [10, 10] := by decide

theorem attempt_console_backup_id (li : Bool) (c : Console) (out : DriverOutcome)
    (now : String) : (attempt_console_backup li c out now).console.id = c.id := by
  cases li <;> cases out <;> rfl

theorem runPass1_consoles_id (oracle : Nat → Nat → DriverOutcome) (now : String)
    (cons : List Console) : ∀ li : Bool,
    (runPass1 oracle now cons li).consoles.map (fun c => c.id)
      = cons.map (fun c => c.id) := by
  induction cons with
  | nil => intro li; rfl
  | cons c rest ih => intro li; simp [runPass1, ih, attempt_console_backup_id]

theorem runPass1_attempts_ids (oracle : Nat → Nat → DriverOutcome) (now : String)
    (cons : List Console) : ∀ li : Bool,
    (runPass1 oracle now cons li).attempts.map (fun a => a.2.1)
      = cons.map (fun c => c.id) := by
  induction cons with
  | nil => intro li; rfl
  | cons c rest ih => intro li; simp [runPass1, ih]

theorem runPass1_attempts_pass (oracle : Nat → Nat → DriverOutcome) (now : String)
    (cons : List Console) : ∀ (li : Bool) (a : Nat × Nat × Bool),
    a ∈ (runPass1 oracle now cons li).attempts → a.1 = 1 := by
  induction cons with
  | nil => intro li a ha; simp [runPass1] at ha
  | cons c rest ih =>
    intro li a ha
    simp only [runPass1, List.mem_cons] at ha
    rcases ha with h | h
    · rw [h]
    · exact ih _ a h

theorem runPass1_fails_eq (oracle : Nat → Nat → DriverOutcome) (now : String)
    (cons : List Console) : ∀ li : Bool,
    (runPass1 oracle now cons li).fails
      = ((runPass1 oracle now cons li).attempts.filter (fun a => !a.2.2)).map
          (fun a => a.2.1) := by
  induction cons with
  | nil => intro li; rfl
  | cons c rest ih =>
    intro li
    by_cases hok : (attempt_console_backup li c (oracle 1 c.id) now).ok
    · simp [runPass1, hok, ih]
    · simp [runPass1, hok, ih]

theorem updateConsole_map_id (cid : Nat) (c2 : Console) (h : c2.id = cid) :
    ∀ cons : List Console,
    (updateConsole cons cid c2).map (fun c => c.id) = cons.map (fun c => c.id) := by
  intro cons
  induction cons with
  | nil => rfl
  | cons c rest ih =>
    by_cases hc : c.id = cid
    · simp [updateConsole, hc, h]
    · simp [updateConsole, hc, ih]

theorem find?_updateConsole_ne (cid i : Nat) (c2 : Console) (h : c2.id = cid)
    (hne : i ≠ cid) : ∀ cons : List Console,
    (updateConsole cons cid c2).find? (fun x => x.id == i)
      = cons.find? (fun x => x.id == i) := by
  intro cons
  have hcidi : (cid == i) = false := beq_eq_false_iff_ne.mpr (Ne.symm hne)
  induction cons with
  | nil => rfl
  | cons c rest ih =>
    by_cases hc : c.id = cid
    · have hb : (c.id == cid) = true := beq_iff_eq.mpr hc
      have h1 : (c2.id == i) = false := by rw [h]; exact hcidi
      have h2 : (c.id == i) = false := by rw [hc]; exact hcidi
      simp [updateConsole, hb, List.find?_cons, h1, h2]
    · have hb : (c.id == cid) = false := beq_eq_false_iff_ne.mpr hc
      by_cases hi : c.id = i
      · have h2 : (c.id == i) = true := beq_iff_eq.mpr hi
        simp [updateConsole, hb, List.find?_cons, h2]
      · have h2 : (c.id == i) = false := beq_eq_false_iff_ne.mpr hi
        simp [updateConsole, hb, List.find?_cons, h2, ih]

theorem find?_updateConsole_self (cid : Nat) (c2 : Console) (h : c2.id = cid) :
    ∀ cons : List Console, (cons.find? (fun x => x.id == cid)).isSome →
    (updateConsole cons cid c2).find? (fun x => x.id == cid) = some c2 := by
  intro cons
  induction cons with
  | nil => intro hs; simp [List.find?] at hs
  | cons c rest ih =>
    intro hs
    by_cases hc : c.id = cid
    · have hb : (c.id == cid) = true := beq_iff_eq.mpr hc
      have h1 : (c2.id == cid) = true := beq_iff_eq.mpr h
      simp [updateConsole, hb, List.find?_cons, h1]
    · have hb : (c.id == cid) = false := beq_eq_false_iff_ne.mpr hc
      have hs2 : (rest.find? (fun x => x.id == cid)).isSome := by
        simpa [List.find?_cons, hb] using hs
      simp [updateConsole, hb, List.find?_cons, ih hs2]

theorem find?_isSome_of_mem_id (i : Nat) : ∀ cons : List Console,
    i ∈ cons.map (fun c => c.id) → (cons.find? (fun x => x.id == i)).isSome := by
  intro cons
  induction cons with
  | nil => intro h; simp at h
  | cons c rest ih =>
    intro h
    by_cases hc : c.id = i
    · have hb : (c.id == i) = true := beq_iff_eq.mpr hc
      simp [List.find?_cons, hb]
    · have hb : (c.id == i) = false := beq_eq_false_iff_ne.mpr hc
      have h0 : i = c.id ∨ ∃ a ∈ rest, a.id = i := by simpa using h
      have h2 : i ∈ rest.map (fun c => c.id) := by
        rcases h0 with h0 | ⟨a, ha, hai⟩
        · exact absurd h0.symm hc
        · simp only [List.mem_map]
          exact ⟨a, ha, hai⟩
      simp [List.find?_cons, hb, ih h2]

theorem find?_id_eq_some (i : Nat) (cons : List Console) (c : Console)
    (h : cons.find? (fun x => x.id == i) = some c) : c.id = i := by
  simpa using List.find?_some h

theorem retryNewConsole_id (li : Bool) (c : Console) (out : DriverOutcome) (now : String) :
    (retryNewConsole li c out now).id = c.id := by
  unfold retryNewConsole
  by_cases h : (attempt_console_backup li c out now).ok <;>
    simp [h, attempt_console_backup_id]

theorem retryNewConsole_ok_status (li : Bool) (c : Console) (out : DriverOutcome)
    (now : String) (h : (attempt_console_backup li c out now).ok = true) :
    (retryNewConsole li c out now).last_backup_status = "Succeeded after retry" := by
  unfold retryNewConsole
  simp [h]

theorem runRetryPass_consoles_id (oracle : Nat → Nat → DriverOutcome) (now : String)
    (p : Nat) (fails : List Nat) : ∀ (cons : List Console) (li : Bool),
    (runRetryPass oracle now p fails cons li).consoles.map (fun c => c.id)
      = cons.map (fun c => c.id) := by
  induction fails with
  | nil => intro cons li; rfl
  | cons cid rest ih =>
    intro cons li
    cases hf : cons.find? (fun x => x.id == cid) with
    | none => simp only [runRetryPass, hf]; exact ih cons li
    | some c =>
      have hcid : c.id = cid := find?_id_eq_some cid cons c hf
      have hid : (retryNewConsole li c (oracle p cid) now).id = cid := by
        rw [retryNewConsole_id]; exact hcid
      simp only [runRetryPass, hf]
      rw [ih, updateConsole_map_id cid _ hid]

theorem runRetryPass_attempts_pass (oracle : Nat → Nat → DriverOutcome) (now : String)
    (p : Nat) (fails : List Nat) : ∀ (cons : List Console) (li : Bool)
    (a : Nat × Nat × Bool),
    a ∈ (runRetryPass oracle now p fails cons li).attempts → a.1 = p := by
  induction fails with
  | nil => intro cons li a ha; simp [runRetryPass] at ha
  | cons cid rest ih =>
    intro cons li a ha
    cases hf : cons.find? (fun x => x.id == cid) with
    | none =>
      rw [show runRetryPass oracle now p (cid :: rest) cons li
            = runRetryPass oracle now p rest cons li by simp only [runRetryPass, hf]] at ha
      exact ih cons li a ha
    | some c =>
      simp only [runRetryPass, hf, List.mem_cons] at ha
      rcases ha with h | h
      · rw [h]
      · exact ih _ _ a h

theorem runRetryPass_attempts_sublist (oracle : Nat → Nat → DriverOutcome) (now : String)
    (p : Nat) (fails : List Nat) : ∀ (cons : List Console) (li : Bool),
    List.Sublist ((runRetryPass oracle now p fails cons li).attempts.map (fun a => a.2.1))
      fails := by
  induction fails with
  | nil => intro cons li; simp [runRetryPass]
  | cons cid rest ih =>
    intro cons li
    cases hf : cons.find? (fun x => x.id == cid) with
    | none =>
      rw [show runRetryPass oracle now p (cid :: rest) cons li
            = runRetryPass oracle now p rest cons li by simp only [runRetryPass, hf]]
      exact List.Sublist.cons cid (ih cons li)
    | some c =>
      simp only [runRetryPass, hf, List.map_cons]
      exact List.Sublist.cons₂ cid (ih _ _)

theorem runRetryPass_attempts_eq (oracle : Nat → Nat → DriverOutcome) (now : String)
    (p : Nat) (fails : List Nat) : ∀ (cons : List Console) (li : Bool),
    (∀ cid ∈ fails, cid ∈ cons.map (fun c => c.id)) →
    (runRetryPass oracle now p fails cons li).attempts.map (fun a => a.2.1) = fails := by
  induction fails with
  | nil => intro cons li _; rfl
  | cons cid rest ih =>
    intro cons li hmem
    cases hf : cons.find? (fun x => x.id == cid) with
    | none =>
      have := find?_isSome_of_mem_id cid cons (hmem cid (List.mem_cons_self _ _))
      rw [hf] at this
      simp at this
    | some c =>
      have hcid : c.id = cid := find?_id_eq_some cid cons c hf
      have hid : (retryNewConsole li c (oracle p cid) now).id = cid := by
        rw [retryNewConsole_id]; exact hcid
      simp only [runRetryPass, hf, List.map_cons]
      rw [ih]
      intro j hj
      rw [updateConsole_map_id cid _ hid]
      exact hmem j (List.mem_cons_of_mem _ hj)

theorem runRetryPass_fails_eq (oracle : Nat → Nat → DriverOutcome) (now : String)
    (p : Nat) (fails : List Nat) : ∀ (cons : List Console) (li : Bool),
    (runRetryPass oracle now p fails cons li).fails
      = ((runRetryPass oracle now p fails cons li).attempts.filter
          (fun a => !a.2.2)).map (fun a => a.2.1) := by
  induction fails with
  | nil => intro cons li; rfl
  | cons cid rest ih =>
    intro cons li
    cases hf : cons.find? (fun x => x.id == cid) with
    | none =>
      rw [show runRetryPass oracle now p (cid :: rest) cons li
            = runRetryPass oracle now p rest cons li by simp only [runRetryPass, hf]]
      exact ih cons li
    | some c =>
      by_cases hok : (attempt_console_backup li c (oracle p cid) now).ok
      · simp only [runRetryPass, hf]
        simp [hok, ih]
      · simp only [runRetryPass, hf]
        simp [hok, ih]

theorem runRetryPass_attempts_mem_id (oracle : Nat → Nat → DriverOutcome) (now : String)
    (p : Nat) (fails : List Nat) : ∀ (cons : List Console) (li : Bool)
    (a : Nat × Nat × Bool),
    a ∈ (runRetryPass oracle now p fails cons li).attempts →
    a.2.1 ∈ cons.map (fun c => c.id) := by
  induction fails with
  | nil => intro cons li a ha; simp [runRetryPass] at ha
  | cons cid rest ih =>
    intro cons li a ha
    cases hf : cons.find? (fun x => x.id == cid) with
    | none =>
      rw [show runRetryPass oracle now p (cid :: rest) cons li
            = runRetryPass oracle now p rest cons li by simp only [runRetryPass, hf]] at ha
      exact ih cons li a ha
    | some c =>
      have hcid : c.id = cid := find?_id_eq_some cid cons c hf
      have hid : (retryNewConsole li c (oracle p cid) now).id = cid := by
        rw [retryNewConsole_id]; exact hcid
      simp only [runRetryPass, hf, List.mem_cons] at ha
      rcases ha with h | h
      · rw [h]
        have : c ∈ cons := List.mem_of_find?_eq_some hf
        simp only [List.mem_map]
        exact ⟨c, this, hcid⟩
      · have := ih _ _ a h
        rwa [updateConsole_map_id cid _ hid] at this

theorem runRetryPass_frame (oracle : Nat → Nat → DriverOutcome) (now : String)
    (p : Nat) (fails : List Nat) : ∀ (cons : List Console) (li : Bool) (i : Nat),
    i ∉ fails →
    (runRetryPass oracle now p fails cons li).consoles.find? (fun x => x.id == i)
      = cons.find? (fun x => x.id == i) := by
  induction fails with
  | nil => intro cons li i _; rfl
  | cons cid rest ih =>
    intro cons li i hi
    have hi1 : i ≠ cid := fun h => hi (h ▸ List.mem_cons_self _ _)
    have hi2 : i ∉ rest := fun h => hi (List.mem_cons_of_mem _ h)
    cases hf : cons.find? (fun x => x.id == cid) with
    | none => simp only [runRetryPass, hf]; exact ih cons li i hi2
    | some c =>
      have hcid : c.id = cid := find?_id_eq_some cid cons c hf
      have hid : (retryNewConsole li c (oracle p cid) now).id = cid := by
        rw [retryNewConsole_id]; exact hcid
      simp only [runRetryPass, hf]
      rw [ih _ _ i hi2, find?_updateConsole_ne cid i _ hid hi1]

theorem runRetryPass_success_status (oracle : Nat → Nat → DriverOutcome) (now : String)
    (p : Nat) (fails : List Nat) : ∀ (cons : List Console) (li : Bool) (i : Nat),
    fails.Nodup →
    (p, i, true) ∈ (runRetryPass oracle now p fails cons li).attempts →
    ((runRetryPass oracle now p fails cons li).consoles.find?
        (fun x => x.id == i)).map (fun c => c.last_backup_status)
      = some "Succeeded after retry" := by
  induction fails with
  | nil => intro cons li i _ hmem; simp [runRetryPass] at hmem
  | cons cid rest ih =>
    intro cons li i hnd hmem
    have hndr : rest.Nodup := hnd.of_cons
    have hcidr : cid ∉ rest := by
      have := List.nodup_cons.mp hnd
      exact this.1
    cases hf : cons.find? (fun x => x.id == cid) with
    | none =>
      rw [show runRetryPass oracle now p (cid :: rest) cons li
            = runRetryPass oracle now p rest cons li by simp only [runRetryPass, hf]] at hmem ⊢
      exact ih cons li i hndr hmem
    | some c =>
      have hcid : c.id = cid := find?_id_eq_some cid cons c hf
      have hid : (retryNewConsole li c (oracle p cid) now).id = cid := by
        rw [retryNewConsole_id]; exact hcid
      simp only [runRetryPass, hf, List.mem_cons] at hmem ⊢
      rcases hmem with h | h
      · -- the head attempt is the successful one: i = cid, the attempt returned ok
        have hieq : i = cid := (Prod.mk.injEq _ _ _ _).mp ((Prod.mk.injEq _ _ _ _).mp h).2 |>.1
        have hok : (attempt_console_backup li c (oracle p cid) now).ok = true := by
          have := ((Prod.mk.injEq _ _ _ _).mp ((Prod.mk.injEq _ _ _ _).mp h).2).2
          exact this.symm
        subst hieq
        rw [runRetryPass_frame oracle now p rest _ _ i hcidr]
        rw [find?_updateConsole_self i _ hid _ (by rw [hf]; rfl)]
        simp only [Option.map_some']
        rw [retryNewConsole_ok_status _ _ _ _ hok]
      · exact ih _ _ i hndr h

theorem find?_eq_none_of_not_mem_id (i : Nat) (cons : List Console)
    (h : i ∉ cons.map (fun c => c.id)) :
    cons.find? (fun x => x.id == i) = none := by
  rw [List.find?_eq_none]
  intro x hx hpx
  exact h (by
    simp only [List.mem_map]
    exact ⟨x, hx, by simpa using hpx⟩)

theorem markFailed3_map_id (fails : List Nat) : ∀ cons : List Console,
    (markFailed3 fails cons).1.map (fun c => c.id) = cons.map (fun c => c.id) := by
  induction fails with
  | nil => intro cons; rfl
  | cons cid rest ih =>
    intro cons
    cases hf : cons.find? (fun x => x.id == cid) with
    | none => simp only [markFailed3, hf]; exact ih cons
    | some c =>
      have hcid : c.id = cid := find?_id_eq_some cid cons c hf
      have hcm : ({ c with last_backup_status := "Failed after 3 tries" } : Console).id = cid :=
        hcid
      simp only [markFailed3, hf]
      rw [ih, updateConsole_map_id cid _ hcm]

theorem markFailed3_frame (fails : List Nat) : ∀ (cons : List Console) (i : Nat),
    i ∉ fails →
    (markFailed3 fails cons).1.find? (fun x => x.id == i)
      = cons.find? (fun x => x.id == i) := by
  induction fails with
  | nil => intro cons i _; rfl
  | cons cid rest ih =>
    intro cons i hi
    have hi1 : i ≠ cid := fun h => hi (h ▸ List.mem_cons_self _ _)
    have hi2 : i ∉ rest := fun h => hi (List.mem_cons_of_mem _ h)
    cases hf : cons.find? (fun x => x.id == cid) with
    | none => simp only [markFailed3, hf]; exact ih cons i hi2
    | some c =>
      have hcid : c.id = cid := find?_id_eq_some cid cons c hf
      have hcm : ({ c with last_backup_status := "Failed after 3 tries" } : Console).id = cid :=
        hcid
      simp only [markFailed3, hf]
      rw [ih _ i hi2, find?_updateConsole_ne cid i _ hcm hi1]

theorem markFailed3_status (fails : List Nat) : ∀ (cons : List Console) (i : Nat),
    fails.Nodup → i ∈ fails → i ∈ cons.map (fun c => c.id) →
    ((markFailed3 fails cons).1.find? (fun x => x.id == i)).map
        (fun c => c.last_backup_status)
      = some "Failed after 3 tries" := by
  induction fails with
  | nil => intro cons i _ hi _; simp at hi
  | cons cid rest ih =>
    intro cons i hnd hi hmem
    have hndr : rest.Nodup := hnd.of_cons
    have hcidr : cid ∉ rest := (List.nodup_cons.mp hnd).1
    cases hf : cons.find? (fun x => x.id == cid) with
    | none =>
      rcases List.mem_cons.mp hi with h | h
      · exfalso
        subst h
        have hs := find?_isSome_of_mem_id i cons hmem
        rw [hf] at hs
        simp at hs
      · simp only [markFailed3, hf]
        exact ih cons i hndr h hmem
    | some c =>
      have hcid : c.id = cid := find?_id_eq_some cid cons c hf
      have hcm : ({ c with last_backup_status := "Failed after 3 tries" } : Console).id = cid :=
        hcid
      rcases List.mem_cons.mp hi with h | h
      · subst h
        simp only [markFailed3, hf]
        rw [markFailed3_frame rest _ i hcidr]
        rw [find?_updateConsole_self i _ hcm _ (by rw [hf]; rfl)]
        rfl
      · simp only [markFailed3, hf]
        refine ih _ i hndr h ?_
        rw [updateConsole_map_id cid _ hcm]
        exact hmem

theorem runRetryPass_skip_missing (oracle : Nat → Nat → DriverOutcome) (now : String)
    (p cid : Nat) (fails : List Nat) : ∀ (cons : List Console) (li : Bool),
    cid ∉ cons.map (fun c => c.id) →
    runRetryPass oracle now p fails cons li
      = runRetryPass oracle now p (fails.filter (fun j => !(j == cid))) cons li := by
  induction fails with
  | nil => intro cons li _; rfl
  | cons j rest ih =>
    intro cons li hcid
    by_cases hj : j = cid
    · subst hj
      have hf : cons.find? (fun x => x.id == j) = none :=
        find?_eq_none_of_not_mem_id j cons hcid
      rw [show runRetryPass oracle now p (j :: rest) cons li
            = runRetryPass oracle now p rest cons li by simp only [runRetryPass, hf]]
      rw [show (j :: rest).filter (fun k => !(k == j))
            = rest.filter (fun k => !(k == j)) by simp [List.filter_cons]]
      exact ih cons li hcid
    · have hjb : (!(j == cid)) = true := by simp [hj]
      rw [show (j :: rest).filter (fun k => !(k == cid))
            = j :: rest.filter (fun k => !(k == cid)) by simp [List.filter_cons, hjb]]
      cases hf : cons.find? (fun x => x.id == j) with
      | none =>
        rw [show runRetryPass oracle now p (j :: rest) cons li
              = runRetryPass oracle now p rest cons li by simp only [runRetryPass, hf]]
        rw [show runRetryPass oracle now p (j :: rest.filter (fun k => !(k == cid))) cons li
              = runRetryPass oracle now p (rest.filter (fun k => !(k == cid))) cons li by
            simp only [runRetryPass, hf]]
        exact ih cons li hcid
      | some c =>
        have hcj : c.id = j := find?_id_eq_some j cons c hf
        have hid : (retryNewConsole li c (oracle p j) now).id = j := by
          rw [retryNewConsole_id]; exact hcj
        simp only [runRetryPass, hf]
        rw [ih (updateConsole cons j (retryNewConsole li c (oracle p j) now)) _ (by
          rw [updateConsole_map_id j _ hid]; exact hcid)]

theorem markFailed3_skip_missing (cid : Nat) (fails : List Nat) : ∀ cons : List Console,
    cid ∉ cons.map (fun c => c.id) →
    markFailed3 fails cons = markFailed3 (fails.filter (fun j => !(j == cid))) cons := by
  induction fails with
  | nil => intro cons _; rfl
  | cons j rest ih =>
    intro cons hcid
    by_cases hj : j = cid
    · subst hj
      have hf : cons.find? (fun x => x.id == j) = none :=
        find?_eq_none_of_not_mem_id j cons hcid
      rw [show markFailed3 (j :: rest) cons = markFailed3 rest cons by
        simp only [markFailed3, hf]]
      rw [show (j :: rest).filter (fun k => !(k == j))
            = rest.filter (fun k => !(k == j)) by simp [List.filter_cons]]
      exact ih cons hcid
    · have hjb : (!(j == cid)) = true := by simp [hj]
      rw [show (j :: rest).filter (fun k => !(k == cid))
            = j :: rest.filter (fun k => !(k == cid)) by simp [List.filter_cons, hjb]]
      cases hf : cons.find? (fun x => x.id == j) with
      | none =>
        rw [show markFailed3 (j :: rest) cons = markFailed3 rest cons by
          simp only [markFailed3, hf]]
        rw [show markFailed3 (j :: rest.filter (fun k => !(k == cid))) cons
              = markFailed3 (rest.filter (fun k => !(k == cid))) cons by
            simp only [markFailed3, hf]]
        exact ih cons hcid
      | some c =>
        have hcj : c.id = j := find?_id_eq_some j cons c hf
        have hcm : ({ c with last_backup_status := "Failed after 3 tries" } : Console).id = j :=
          hcj
        simp only [markFailed3, hf]
        rw [ih (updateConsole cons j { c with last_backup_status := "Failed after 3 tries" }) (by
          rw [updateConsole_map_id j _ hcm]; exact hcid)]

theorem ladder_case1 (oracle : Nat → Nat → DriverOutcome) (now : String)
    (cons : List Console) (h1 : (ladderP1 oracle now cons).fails = []) :
    scheduled_backup_job_logic oracle now cons true
      = { consoles := (ladderP1 oracle now cons).consoles,
          loggedIn := (ladderP1 oracle now cons).loggedIn,
          logs := "Scheduled backup => pass#1 for all consoles."
            :: (ladderP1 oracle now cons).logs
            ++ ["Scheduled backup => complete => all passes done."],
          attempts := (ladderP1 oracle now cons).attempts,
          delays := [], fails1 := [], fails2 := [], fails3 := [] } := by
  unfold ladderP1 at h1 ⊢
  simp only [scheduled_backup_job_logic]
  simp [h1]

theorem ladder_case2 (oracle : Nat → Nat → DriverOutcome) (now : String)
    (cons : List Console) (h1 : (ladderP1 oracle now cons).fails ≠ [])
    (h2 : (ladderP2 oracle now cons).fails = []) :
    scheduled_backup_job_logic oracle now cons true
      = { consoles := (ladderP2 oracle now cons).consoles,
          loggedIn := (ladderP2 oracle now cons).loggedIn,
          logs := "Scheduled backup => pass#1 for all consoles."
            :: (ladderP1 oracle now cons).logs ++ (ladderP2 oracle now cons).logs
            ++ ["Scheduled backup => complete => all passes done."],
          attempts := (ladderP1 oracle now cons).attempts
            ++ (ladderP2 oracle now cons).attempts,
          delays := [10],
          fails1 := (ladderP1 oracle now cons).fails, fails2 := [], fails3 := [] } := by
  unfold ladderP2 ladderP1 at h2 ⊢
  unfold ladderP1 at h1
  simp only [scheduled_backup_job_logic]
  simp [h1, h2]

theorem ladder_case3 (oracle : Nat → Nat → DriverOutcome) (now : String)
    (cons : List Console) (h1 : (ladderP1 oracle now cons).fails ≠ [])
    (h2 : (ladderP2 oracle now cons).fails ≠ []) :
    scheduled_backup_job_logic oracle now cons true
      = { consoles := (markFailed3 (ladderP3 oracle now cons).fails
            (ladderP3 oracle now cons).consoles).1,
          loggedIn := (ladderP3 oracle now cons).loggedIn,
          logs := "Scheduled backup => pass#1 for all consoles."
            :: (ladderP1 oracle now cons).logs ++ (ladderP2 oracle now cons).logs
            ++ (ladderP3 oracle now cons).logs
            ++ (markFailed3 (ladderP3 oracle now cons).fails
                  (ladderP3 oracle now cons).consoles).2
            ++ ["Scheduled backup => complete => all passes done."],
          attempts := (ladderP1 oracle now cons).attempts
            ++ (ladderP2 oracle now cons).attempts
            ++ (ladderP3 oracle now cons).attempts,
          delays := [10, 10],
          fails1 := (ladderP1 oracle now cons).fails,
          fails2 := (ladderP2 oracle now cons).fails,
          fails3 := (ladderP3 oracle now cons).fails } := by
  unfold ladderP3 ladderP2 ladderP1
  unfold ladderP2 ladderP1 at h2
  unfold ladderP1 at h1
  simp only [scheduled_backup_job_logic]
  simp [h1, h2]

theorem mem_failMap_of_false {l : List (Nat × Nat × Bool)} {p i : Nat}
    (h : (p, i, false) ∈ l) :
    i ∈ (l.filter (fun a => !a.2.2)).map (fun a => a.2.1) := by
  simp only [List.mem_map, List.mem_filter]
  exact ⟨(p, i, false), ⟨h, rfl⟩, rfl⟩

theorem not_mem_failMap_of_true {l : List (Nat × Nat × Bool)} {p i : Nat}
    (hnd : (l.map (fun a => a.2.1)).Nodup) (h : (p, i, true) ∈ l) :
    i ∉ (l.filter (fun a => !a.2.2)).map (fun a => a.2.1) := by
  intro hmem
  simp only [List.mem_map, List.mem_filter] at hmem
  obtain ⟨a, ⟨ha, hok⟩, hai⟩ := hmem
  have heq : a = (p, i, true) := List.inj_on_of_nodup_map hnd ha h (by simpa using hai)
  rw [heq] at hok
  simp at hok

theorem ladderP1_fails_sublist (oracle : Nat → Nat → DriverOutcome) (now : String)
    (cons : List Console) :
    List.Sublist (ladderP1 oracle now cons).fails (cons.map (fun c => c.id)) := by
  unfold ladderP1
  rw [runPass1_fails_eq]
  have h := (List.filter_sublist (l := (runPass1 oracle now cons true).attempts)
    (p := fun a => !a.2.2)).map (fun a => a.2.1)
  rwa [runPass1_attempts_ids] at h

theorem ladderP1_consoles_id (oracle : Nat → Nat → DriverOutcome) (now : String)
    (cons : List Console) :
    (ladderP1 oracle now cons).consoles.map (fun c => c.id)
      = cons.map (fun c => c.id) := by
  unfold ladderP1
  exact runPass1_consoles_id oracle now cons true

theorem ladderP2_attempts_ids (oracle : Nat → Nat → DriverOutcome) (now : String)
    (cons : List Console) :
    (ladderP2 oracle now cons).attempts.map (fun a => a.2.1)
      = (ladderP1 oracle now cons).fails := by
  unfold ladderP2
  apply runRetryPass_attempts_eq
  intro cid hcid
  rw [ladderP1_consoles_id]
  exact (ladderP1_fails_sublist oracle now cons).subset hcid

theorem ladderP2_consoles_id (oracle : Nat → Nat → DriverOutcome) (now : String)
    (cons : List Console) :
    (ladderP2 oracle now cons).consoles.map (fun c => c.id)
      = cons.map (fun c => c.id) := by
  unfold ladderP2
  rw [runRetryPass_consoles_id]
  exact ladderP1_consoles_id oracle now cons

theorem ladderP2_fails_eq (oracle : Nat → Nat → DriverOutcome) (now : String)
    (cons : List Console) :
    (ladderP2 oracle now cons).fails
      = ((ladderP2 oracle now cons).attempts.filter (fun a => !a.2.2)).map
          (fun a => a.2.1) := by
  unfold ladderP2
  exact runRetryPass_fails_eq oracle now 2 _ _ _

theorem ladderP2_fails_sublist (oracle : Nat → Nat → DriverOutcome) (now : String)
    (cons : List Console) :
    List.Sublist (ladderP2 oracle now cons).fails (ladderP1 oracle now cons).fails := by
  rw [ladderP2_fails_eq]
  have h := (List.filter_sublist (l := (ladderP2 oracle now cons).attempts)
    (p := fun a => !a.2.2)).map (fun a => a.2.1)
  rwa [ladderP2_attempts_ids] at h

theorem ladderP3_attempts_ids (oracle : Nat → Nat → DriverOutcome) (now : String)
    (cons : List Console) :
    (ladderP3 oracle now cons).attempts.map (fun a => a.2.1)
      = (ladderP2 oracle now cons).fails := by
  unfold ladderP3
  apply runRetryPass_attempts_eq
  intro cid hcid
  rw [ladderP2_consoles_id]
  exact (((ladderP2_fails_sublist oracle now cons).trans
    (ladderP1_fails_sublist oracle now cons)).subset) hcid

theorem ladderP3_consoles_id (oracle : Nat → Nat → DriverOutcome) (now : String)
    (cons : List Console) :
    (ladderP3 oracle now cons).consoles.map (fun c => c.id)
      = cons.map (fun c => c.id) := by
  unfold ladderP3
  rw [runRetryPass_consoles_id]
  exact ladderP2_consoles_id oracle now cons

theorem ladderP3_fails_eq (oracle : Nat → Nat → DriverOutcome) (now : String)
    (cons : List Console) :
    (ladderP3 oracle now cons).fails
      = ((ladderP3 oracle now cons).attempts.filter (fun a => !a.2.2)).map
          (fun a => a.2.1) := by
  unfold ladderP3
  exact runRetryPass_fails_eq oracle now 3 _ _ _

theorem ladderP3_fails_sublist (oracle : Nat → Nat → DriverOutcome) (now : String)
    (cons : List Console) :
    List.Sublist (ladderP3 oracle now cons).fails (ladderP2 oracle now cons).fails := by
  rw [ladderP3_fails_eq]
  have h := (List.filter_sublist (l := (ladderP3 oracle now cons).attempts)
    (p := fun a => !a.2.2)).map (fun a => a.2.1)
  rwa [ladderP3_attempts_ids] at h

theorem ladderP1_attempts_ids (oracle : Nat → Nat → DriverOutcome) (now : String)
    (cons : List Console) :
    (ladderP1 oracle now cons).attempts.map (fun a => a.2.1)
      = cons.map (fun c => c.id) := by
  unfold ladderP1
  exact runPass1_attempts_ids oracle now cons true

theorem ladderP1_fails_filter (oracle : Nat → Nat → DriverOutcome) (now : String)
    (cons : List Console) :
    (ladderP1 oracle now cons).fails
      = ((ladderP1 oracle now cons).attempts.filter (fun a => !a.2.2)).map
          (fun a => a.2.1) := by
  unfold ladderP1
  exact runPass1_fails_eq oracle now cons true

theorem ladderP1_attempts_pass (oracle : Nat → Nat → DriverOutcome) (now : String)
    (cons : List Console) :
    ∀ a ∈ (ladderP1 oracle now cons).attempts, a.1 = 1 := by
  unfold ladderP1
  exact fun a => runPass1_attempts_pass oracle now cons true a

theorem ladderP2_attempts_pass (oracle : Nat → Nat → DriverOutcome) (now : String)
    (cons : List Console) :
    ∀ a ∈ (ladderP2 oracle now cons).attempts, a.1 = 2 := by
  unfold ladderP2
  exact fun a => runRetryPass_attempts_pass oracle now 2 _ _ _ a

theorem ladderP3_attempts_pass (oracle : Nat → Nat → DriverOutcome) (now : String)
    (cons : List Console) :
    ∀ a ∈ (ladderP3 oracle now cons).attempts, a.1 = 3 := by
  unfold ladderP3
  exact fun a => runRetryPass_attempts_pass oracle now 3 _ _ _ a

theorem filter_pass_eq_self {l : List (Nat × Nat × Bool)} {k : Nat}
    (h : ∀ a ∈ l, a.1 = k) : l.filter (fun a => a.1 == k) = l :=
  List.filter_eq_self.mpr (fun a ha => by simp [h a ha])

theorem filter_pass_eq_nil {l : List (Nat × Nat × Bool)} {q k : Nat} (hqk : q ≠ k)
    (h : ∀ a ∈ l, a.1 = q) : l.filter (fun a => a.1 == k) = [] :=
  List.filter_eq_nil_iff.mpr (fun a ha => by simp [h a ha, hqk])

theorem filter_passfail_eq {l : List (Nat × Nat × Bool)} {k : Nat}
    (h : ∀ a ∈ l, a.1 = k) :
    l.filter (fun a => a.1 == k && !a.2.2) = l.filter (fun a => !a.2.2) :=
  List.filter_congr (fun a ha => by simp [h a ha])

theorem filter_passfail_nil {l : List (Nat × Nat × Bool)} {q k : Nat} (hqk : q ≠ k)
    (h : ∀ a ∈ l, a.1 = q) :
    l.filter (fun a => a.1 == k && !a.2.2) = [] :=
  List.filter_eq_nil_iff.mpr (fun a ha => by simp [h a ha, hqk])

/-- C1: a batch backup run that starts logged in performs at most three passes.
Pass 1 attempts every stored target in stored order; pass 2 re-attempts exactly
the pass-1 failures in the same relative order, and pass 3 exactly the pass-2
failures; every inter-pass wait is the fixed 10-unit delay, with one before
pass 2 and one before pass 3 and no other; a target failing all three passes
ends with status "Failed after 3 tries"; no attempt carries a pass number
beyond 3, so no target is ever attempted a fourth time in the run. -/
theorem retry_ladder_three_passes (oracle : Nat → Nat → DriverOutcome) (now : String)
    (cons : List Console) (hnd : (cons.map (fun c => c.id)).Nodup) :
    (∀ a ∈ (scheduled_backup_job_logic oracle now cons true).attempts,
      1 ≤ a.1 ∧ a.1 ≤ 3) ∧
    ((scheduled_backup_job_logic oracle now cons true).attempts.filter
        (fun a => a.1 == 1)).map (fun a => a.2.1) = cons.map (fun c => c.id) ∧
    ((scheduled_backup_job_logic oracle now cons true).attempts.filter
        (fun a => a.1 == 2)).map (fun a => a.2.1)
      = ((scheduled_backup_job_logic oracle now cons true).attempts.filter
          (fun a => a.1 == 1 && !a.2.2)).map (fun a => a.2.1) ∧
    ((scheduled_backup_job_logic oracle now cons true).attempts.filter
        (fun a => a.1 == 3)).map (fun a => a.2.1)
      = ((scheduled_backup_job_logic oracle now cons true).attempts.filter
          (fun a => a.1 == 2 && !a.2.2)).map (fun a => a.2.1) ∧
    (∀ d ∈ (scheduled_backup_job_logic oracle now cons true).delays, d = 10) ∧
    ((scheduled_backup_job_logic oracle now cons true).fails1 = [] →
      (scheduled_backup_job_logic oracle now cons true).delays = []) ∧
    ((scheduled_backup_job_logic oracle now cons true).fails1 ≠ [] →
      (scheduled_backup_job_logic oracle now cons true).fails2 = [] →
      (scheduled_backup_job_logic oracle now cons true).delays = [10]) ∧
    ((scheduled_backup_job_logic oracle now cons true).fails1 ≠ [] →
      (scheduled_backup_job_logic oracle now cons true).fails2 ≠ [] →
      (scheduled_backup_job_logic oracle now cons true).delays = [10, 10]) ∧
    (∀ i : Nat, (3, i, false) ∈ (scheduled_backup_job_logic oracle now cons true).attempts →
      ((scheduled_backup_job_logic oracle now cons true).consoles.find?
          (fun x => x.id == i)).map (fun c => c.last_backup_status)
        = some "Failed after 3 tries") := by
  have hp1 := ladderP1_attempts_pass oracle now cons
  have hp2 := ladderP2_attempts_pass oracle now cons
  have hp3 := ladderP3_attempts_pass oracle now cons
  by_cases h1 : (ladderP1 oracle now cons).fails = []
  · rw [ladder_case1 oracle now cons h1]
    dsimp only
    refine ⟨?_, ?_, ?_, ?_, ?_, ?_, ?_, ?_, ?_⟩
    · intro a ha
      have := hp1 a ha
      omega
    · rw [filter_pass_eq_self hp1, ladderP1_attempts_ids]
    · rw [filter_pass_eq_nil (by decide : (1 : Nat) ≠ 2) hp1, filter_passfail_eq hp1,
        ← ladderP1_fails_filter, h1]
      rfl
    · rw [filter_pass_eq_nil (by decide : (1 : Nat) ≠ 3) hp1,
        filter_passfail_nil (by decide : (1 : Nat) ≠ 2) hp1]
    · intro d hd
      simp at hd
    · intro _
      rfl
    · intro hne _
      exact absurd rfl hne
    · intro hne _
      exact absurd rfl hne
    · intro i hmem
      have := hp1 _ hmem
      simp at this
  · by_cases h2 : (ladderP2 oracle now cons).fails = []
    · rw [ladder_case2 oracle now cons h1 h2]
      dsimp only
      refine ⟨?_, ?_, ?_, ?_, ?_, ?_, ?_, ?_, ?_⟩
      · intro a ha
        rcases List.mem_append.mp ha with h | h
        · have := hp1 a h; omega
        · have := hp2 a h; omega
      · rw [List.filter_append, filter_pass_eq_self hp1,
          filter_pass_eq_nil (by decide : (2 : Nat) ≠ 1) hp2, List.append_nil,
          ladderP1_attempts_ids]
      · rw [List.filter_append, List.filter_append,
          filter_pass_eq_nil (by decide : (1 : Nat) ≠ 2) hp1,
          filter_pass_eq_self hp2,
          filter_passfail_eq hp1,
          filter_passfail_nil (by decide : (2 : Nat) ≠ 1) hp2]
        simp only [List.nil_append, List.append_nil]
        rw [ladderP2_attempts_ids, ← ladderP1_fails_filter]
      · rw [List.filter_append, List.filter_append,
          filter_pass_eq_nil (by decide : (1 : Nat) ≠ 3) hp1,
          filter_pass_eq_nil (by decide : (2 : Nat) ≠ 3) hp2,
          filter_passfail_nil (by decide : (1 : Nat) ≠ 2) hp1,
          filter_passfail_eq hp2]
        simp only [List.nil_append, List.append_nil]
        rw [← ladderP2_fails_eq, h2]
        rfl
      · intro d hd
        simp at hd
        exact hd
      · intro hc
        exact absurd hc h1
      · intro _ _
        rfl
      · intro _ hne
        exact absurd rfl hne
      · intro i hmem
        rcases List.mem_append.mp hmem with h | h
        · have := hp1 _ h; simp at this
        · have := hp2 _ h; simp at this
    · rw [ladder_case3 oracle now cons h1 h2]
      dsimp only
      have hsub3 : List.Sublist (ladderP3 oracle now cons).fails
          (cons.map (fun c => c.id)) :=
        ((ladderP3_fails_sublist oracle now cons).trans
          (ladderP2_fails_sublist oracle now cons)).trans
          (ladderP1_fails_sublist oracle now cons)
      refine ⟨?_, ?_, ?_, ?_, ?_, ?_, ?_, ?_, ?_⟩
      · intro a ha
        rcases List.mem_append.mp ha with h12 | h
        · rcases List.mem_append.mp h12 with h | h
          · have := hp1 a h; omega
          · have := hp2 a h; omega
        · have := hp3 a h; omega
      · rw [List.filter_append, List.filter_append,
          filter_pass_eq_self hp1,
          filter_pass_eq_nil (by decide : (2 : Nat) ≠ 1) hp2,
          filter_pass_eq_nil (by decide : (3 : Nat) ≠ 1) hp3]
        simp only [List.nil_append, List.append_nil]
        rw [ladderP1_attempts_ids]
      · rw [List.filter_append, List.filter_append, List.filter_append,
          List.filter_append,
          filter_pass_eq_nil (by decide : (1 : Nat) ≠ 2) hp1,
          filter_pass_eq_self hp2,
          filter_pass_eq_nil (by decide : (3 : Nat) ≠ 2) hp3,
          filter_passfail_eq hp1,
          filter_passfail_nil (by decide : (2 : Nat) ≠ 1) hp2,
          filter_passfail_nil (by decide : (3 : Nat) ≠ 1) hp3]
        simp only [List.nil_append, List.append_nil]
        rw [ladderP2_attempts_ids, ← ladderP1_fails_filter]
      · rw [List.filter_append, List.filter_append, List.filter_append,
          List.filter_append,
          filter_pass_eq_nil (by decide : (1 : Nat) ≠ 3) hp1,
          filter_pass_eq_nil (by decide : (2 : Nat) ≠ 3) hp2,
          filter_pass_eq_self hp3,
          filter_passfail_nil (by decide : (1 : Nat) ≠ 2) hp1,
          filter_passfail_eq hp2,
          filter_passfail_nil (by decide : (3 : Nat) ≠ 2) hp3]
        simp only [List.nil_append, List.append_nil]
        rw [ladderP3_attempts_ids, ← ladderP2_fails_eq]
      · intro d hd
        simp at hd
        exact hd
      · intro hc
        exact absurd hc h1
      · intro _ hc
        exact absurd hc h2
      · intro _ _
        rfl
      · intro i hmem
        have hmem3 : (3, i, false) ∈ (ladderP3 oracle now cons).attempts := by
          rcases List.mem_append.mp hmem with h12 | h
          · rcases List.mem_append.mp h12 with h | h
            · have := hp1 _ h; simp at this
            · have := hp2 _ h; simp at this
          · exact h
        have hfail : i ∈ (ladderP3 oracle now cons).fails := by
          rw [ladderP3_fails_eq]
          exact mem_failMap_of_false hmem3
        have hnd3 : (ladderP3 oracle now cons).fails.Nodup := hnd.sublist hsub3
        exact markFailed3_status (ladderP3 oracle now cons).fails
          (ladderP3 oracle now cons).consoles i hnd3 hfail
          (by rw [ladderP3_consoles_id]; exact hsub3.subset hfail)

theorem retry_ladder_three_passes_witness :
    (demoConsoles.map (fun c => c.id)).Nodup ∧
    (∀ a ∈ (scheduled_backup_job_logic demoOracle "t" demoConsoles true).attempts,
      1 ≤ a.1 ∧ a.1 ≤ 3) :=
  ⟨by decide, (retry_ladder_three_passes demoOracle "t" demoConsoles (by decide)).1⟩

/-- C2: a target that fails in one pass of a batch run and then succeeds in a
later pass (pass 2 or pass 3) ends the run with the distinguishing status
"Succeeded after retry", not the plain "Success" status. -/
theorem retry_success_marked (oracle : Nat → Nat → DriverOutcome) (now : String)
    (cons : List Console) (hnd : (cons.map (fun c => c.id)).Nodup)
    (i p : Nat) (hp : p = 2 ∨ p = 3)
    (hmem : (p, i, true) ∈ (scheduled_backup_job_logic oracle now cons true).attempts) :
    ((scheduled_backup_job_logic oracle now cons true).consoles.find?
        (fun x => x.id == i)).map (fun c => c.last_backup_status)
      = some "Succeeded after retry" := by
  have hp1 := ladderP1_attempts_pass oracle now cons
  have hp2 := ladderP2_attempts_pass oracle now cons
  have hp3 := ladderP3_attempts_pass oracle now cons
  have hnd1 : (ladderP1 oracle now cons).fails.Nodup :=
    hnd.sublist (ladderP1_fails_sublist oracle now cons)
  have hnd2 : (ladderP2 oracle now cons).fails.Nodup :=
    hnd.sublist ((ladderP2_fails_sublist oracle now cons).trans
      (ladderP1_fails_sublist oracle now cons))
  by_cases h1 : (ladderP1 oracle now cons).fails = []
  · rw [ladder_case1 oracle now cons h1] at hmem ⊢
    dsimp only at hmem ⊢
    have hep : p = 1 := hp1 _ hmem
    rcases hp with rfl | rfl <;> simp at hep
  · by_cases h2 : (ladderP2 oracle now cons).fails = []
    · rw [ladder_case2 oracle now cons h1 h2] at hmem ⊢
      dsimp only at hmem ⊢
      rcases List.mem_append.mp hmem with h | h
      · have hep : p = 1 := hp1 _ h
        rcases hp with rfl | rfl <;> simp at hep
      · have hep : p = 2 := hp2 _ h
        subst hep
        have h' := h
        unfold ladderP2 at h' ⊢
        exact runRetryPass_success_status oracle now 2 _ _ _ i hnd1 h'
    · rw [ladder_case3 oracle now cons h1 h2] at hmem ⊢
      dsimp only at hmem ⊢
      rcases List.mem_append.mp hmem with h12 | h3
      · rcases List.mem_append.mp h12 with h | h
        · have hep : p = 1 := hp1 _ h
          rcases hp with rfl | rfl <;> simp at hep
        · have hep : p = 2 := hp2 _ h
          subst hep
          have hstat : ((ladderP2 oracle now cons).consoles.find?
              (fun x => x.id == i)).map (fun c => c.last_backup_status)
                = some "Succeeded after retry" := by
            have h' := h
            unfold ladderP2 at h' ⊢
            exact runRetryPass_success_status oracle now 2 _ _ _ i hnd1 h'
          have hnotf2 : i ∉ (ladderP2 oracle now cons).fails := by
            rw [ladderP2_fails_eq]
            refine not_mem_failMap_of_true ?_ h
            rw [ladderP2_attempts_ids]
            exact hnd1
          have hnotf3 : i ∉ (ladderP3 oracle now cons).fails := fun hin =>
            hnotf2 ((ladderP3_fails_sublist oracle now cons).subset hin)
          rw [markFailed3_frame _ _ i hnotf3]
          unfold ladderP3
          rw [runRetryPass_frame oracle now 3 _ _ _ i hnotf2]
          exact hstat
      · have hep : p = 3 := hp3 _ h3
        subst hep
        have hstat : ((ladderP3 oracle now cons).consoles.find?
            (fun x => x.id == i)).map (fun c => c.last_backup_status)
              = some "Succeeded after retry" := by
          have h' := h3
          unfold ladderP3 at h' ⊢
          exact runRetryPass_success_status oracle now 3 _ _ _ i hnd2 h'
        have hnotf3 : i ∉ (ladderP3 oracle now cons).fails := by
          rw [ladderP3_fails_eq]
          refine not_mem_failMap_of_true ?_ h3
          rw [ladderP3_attempts_ids]
          exact hnd2
        rw [markFailed3_frame _ _ i hnotf3]
        exact hstat

theorem retry_success_marked_witness :
    ((scheduled_backup_job_logic demoOracle "t" demoConsoles true).consoles.find?
        (fun x => x.id == 2)).map (fun c => c.last_backup_status)
      = some "Succeeded after retry" :=
  retry_success_marked demoOracle "t" demoConsoles (by decide) 2 3 (Or.inr rfl) (by decide)

/-- C3: a batch backup run started while logged out aborts immediately: a skip
message is the only log entry, no target is attempted, no delay elapses, and the
console records (statuses and timestamps) are returned unchanged. -/
theorem batch_aborts_when_logged_out (oracle : Nat → Nat → DriverOutcome)
    (now : String) (cons : List Console) :
    scheduled_backup_job_logic oracle now cons false
      = { consoles := cons, loggedIn := false,
          logs := ["Scheduled backup => canceled => not logged in."],
          attempts := [], delays := [], fails1 := [], fails2 := [], fails3 := [] } :=
  rfl

/-- C10: during a retry pass (pass 2 or 3), and during terminal-failure marking,
a fail-list id with no matching console record is skipped silently — the pass is
the same as if the id were absent from the fail list (no attempt, no status
write, no log entry for it, all other ids still processed), and no attempt is
ever recorded for that id. -/
theorem retry_pass_skips_missing_target (oracle : Nat → Nat → DriverOutcome)
    (now : String) (p cid : Nat) (fails : List Nat) (cons : List Console) (li : Bool)
    (hmiss : cid ∉ cons.map (fun c => c.id)) :
    runRetryPass oracle now p fails cons li
      = runRetryPass oracle now p (fails.filter (fun j => !(j == cid))) cons li ∧
    (∀ b : Bool, (p, cid, b) ∉ (runRetryPass oracle now p fails cons li).attempts) ∧
    markFailed3 fails cons
      = markFailed3 (fails.filter (fun j => !(j == cid))) cons := by
  refine ⟨runRetryPass_skip_missing oracle now p cid fails cons li hmiss, ?_,
    markFailed3_skip_missing cid fails cons hmiss⟩
  intro b hb
  exact hmiss (runRetryPass_attempts_mem_id oracle now p fails cons li _ hb)

theorem retry_pass_skips_missing_target_witness :
    (2 ∉ ([⟨1, "A", "uA", "Unknown", none⟩] : List Console).map (fun c => c.id)) ∧
    runRetryPass demoOracle "t" 2 [2, 1] [⟨1, "A", "uA", "Unknown", none⟩] true
      = runRetryPass demoOracle "t" 2 ([2, 1].filter (fun j => !(j == 2)))
          [⟨1, "A", "uA", "Unknown", none⟩] true :=
  ⟨by decide,
    (retry_pass_skips_missing_target demoOracle "t" 2 2 [2, 1]
      [⟨1, "A", "uA", "Unknown", none⟩] true (by decide)).1⟩

/-- C4: while a batch-backup-class task is running or one is queued, submitting
a new scheduled batch backup is rejected — the queue is unchanged and a conflict
is logged — while submitting a connectivity probe under the same conditions is
always accepted and appended to the queue. -/
theorem duplicate_guard (cur : TaskStatus) (queue : List String)
    (h : (cur.running = true ∧ isBackupClassLabel cur.step = true)
      ∨ (∃ l ∈ queue, isBackupClassLabel l = true)) :
    (scheduled_backup_job cur queue).accepted = false ∧
    (scheduled_backup_job cur queue).queue = queue ∧
    ((scheduled_backup_job cur queue).logs
        = ["Conflict: a scheduled backup is already running => skip new one."] ∨
      (scheduled_backup_job cur queue).logs
        = ["Conflict: a scheduled backup is queued => skip new one."]) ∧
    (scheduled_connectivity_check_job queue).accepted = true ∧
    (scheduled_connectivity_check_job queue).queue = queue ++ ["ConnectivityCheck"] := by
  by_cases hrun : (cur.running && isBackupClassLabel cur.step) = true
  · unfold scheduled_backup_job scheduled_connectivity_check_job
    rw [if_pos hrun]
    exact ⟨rfl, rfl, Or.inl rfl, rfl, rfl⟩
  · have hq : queue.any (fun l => isBackupClassLabel l) = true := by
      rcases h with ⟨h1, h2⟩ | ⟨l, hl, hbl⟩
      · exact absurd (by simp [h1, h2]) hrun
      · exact List.any_eq_true.mpr ⟨l, hl, hbl⟩
    unfold scheduled_backup_job scheduled_connectivity_check_job
    rw [if_neg hrun, if_pos hq]
    exact ⟨rfl, rfl, Or.inr rfl, rfl, rfl⟩

theorem duplicate_guard_witness :
    ((⟨true, "ScheduledBackup => Pass1 => allConsoles"⟩ : TaskStatus).running = true ∧
      isBackupClassLabel "ScheduledBackup => Pass1 => allConsoles" = true) ∧
    (scheduled_backup_job ⟨true, "ScheduledBackup => Pass1 => allConsoles"⟩
        ["ConnectivityCheck"]).accepted = false ∧
    (scheduled_connectivity_check_job ["ConnectivityCheck"]).accepted = true :=
  ⟨⟨rfl, by decide⟩,
    (duplicate_guard ⟨true, "ScheduledBackup => Pass1 => allConsoles"⟩
      ["ConnectivityCheck"] (Or.inl ⟨rfl, by decide⟩)).1,
    (duplicate_guard ⟨true, "ScheduledBackup => Pass1 => allConsoles"⟩
      ["ConnectivityCheck"] (Or.inl ⟨rfl, by decide⟩)).2.2.2.1⟩

/-- C5 counterexample: an unrecoverable driver error during a backup attempt
made while logged in leaves the session flag true — the claim requires the
LOGGED_IN → LOGGED_OUT transition to fire on such errors; the same holds for
the connectivity probe, where the exception escapes without touching the flag. -/
theorem session_error_no_flip_counterexample :
    (attempt_console_backup true ⟨1, "A", "uA", "Unknown", none⟩
        (DriverOutcome.driverError "browser crashed") "t").loggedIn = true ∧
    (attempt_console_backup true ⟨1, "A", "uA", "Unknown", none⟩
        (DriverOutcome.driverError "browser crashed") "t").ok = false ∧
    (scheduled_connectivity_check_logic true
        (ProbeOutcome.probeError "browser crashed")).loggedIn = true ∧
    (scheduled_connectivity_check_logic true
        (ProbeOutcome.probeError "browser crashed")).raised = true := by
  exact ⟨rfl, rfl, rfl, rfl⟩

/-- C5 (amended): the session flag flips to false exactly when an operation made
while logged in observes a forced redirect to the authentication or
second-factor surface — in both the backup attempt and the connectivity probe —
while an unrecoverable driver error leaves the flag unchanged. -/
theorem session_flip_on_redirect (c : Console) (now e : String) :
    (attempt_console_backup true c DriverOutcome.authRedirect now).loggedIn = false ∧
    (scheduled_connectivity_check_logic true ProbeOutcome.authRedirect).loggedIn = false ∧
    (attempt_console_backup true c (DriverOutcome.driverError e) now).loggedIn = true ∧
    (scheduled_connectivity_check_logic true (ProbeOutcome.probeError e)).loggedIn = true :=
  ⟨rfl, rfl, rfl, rfl⟩

/-- C6: after any `update_schedule` write the stored configuration satisfies
`unit = minutes → value ≥ 15` for both jobs; a minute-unit value below 15 is
stored as 15 with a warning recorded; the write is never rejected — all other
submitted fields are stored as given. -/
theorem schedule_floor_invariant (f : Schedule) :
    ((update_schedule f).1.backup_unit = "minutes" →
      15 ≤ (update_schedule f).1.backup_value) ∧
    ((update_schedule f).1.check_unit = "minutes" →
      15 ≤ (update_schedule f).1.check_value) ∧
    (f.backup_unit = "minutes" → f.backup_value < 15 →
      (update_schedule f).1.backup_value = 15 ∧
      "Backup interval set to minimum of 15 minutes." ∈ (update_schedule f).2) ∧
    (f.check_unit = "minutes" → f.check_value < 15 →
      (update_schedule f).1.check_value = 15 ∧
      "Check interval set to minimum of 15 minutes." ∈ (update_schedule f).2) ∧
    ((update_schedule f).1.backup_enabled = f.backup_enabled ∧
      (update_schedule f).1.backup_unit = f.backup_unit ∧
      (update_schedule f).1.check_enabled = f.check_enabled ∧
      (update_schedule f).1.check_unit = f.check_unit) := by
  unfold update_schedule
  by_cases hb : f.backup_unit = "minutes" ∧ f.backup_value < 15 <;>
    by_cases hc : f.check_unit = "minutes" ∧ f.check_value < 15 <;>
      refine ⟨?_, ?_, ?_, ?_, ?_, ?_, ?_, ?_⟩ <;>
        simp [hb, hc] <;>
          first
          | omega
          | (intro h1; have h2 := not_and.mp hb h1; omega)
          | (intro h1; have h2 := not_and.mp hc h1; omega)

theorem schedule_floor_invariant_witness :
    (update_schedule demoForm).1.backup_value = 15 ∧
    "Backup interval set to minimum of 15 minutes." ∈ (update_schedule demoForm).2 :=
  (schedule_floor_invariant demoForm).2.2.1 rfl (by decide)

/-- C7 counterexample: after the worker finishes a task, with another task still
queued, a leaked Chrome process survives the post-task cleanup — so the cleanup
is not merely "a no-op when none exist": it is also a no-op whenever more tasks
are pending, even though a leaked process exists. -/
theorem cleanup_skip_counterexample :
    isChromeProc ⟨7, "chrome", "/usr/bin/google-chrome"⟩ = true ∧
    worker_finish_task ["ConnectivityCheck"] [⟨7, "chrome", "/usr/bin/google-chrome"⟩]
      = [⟨7, "chrome", "/usr/bin/google-chrome"⟩] := by
  constructor
  · decide
  · rfl

/-- C7 (amended): the worker invokes the cleanup routine after every task, but
the kill is performed only when no task is running and the queue is empty; in
that case every process matching the Chrome filter is removed and non-matching
processes survive, and the cleanup is a no-op when no matching process exists;
with tasks still queued the cleanup does nothing at all. -/
theorem cleanup_after_task (procs : List Proc) :
    worker_finish_task [] procs = kill_leftover_chrome_processes procs ∧
    ((∀ q ∈ procs, isChromeProc q = false) → worker_finish_task [] procs = procs) ∧
    (∀ queue : List String, queue ≠ [] → worker_finish_task queue procs = procs) ∧
    (∀ q ∈ kill_leftover_chrome_processes procs, isChromeProc q = false) := by
  refine ⟨rfl, ?_, ?_, ?_⟩
  · intro hall
    show kill_leftover_chrome_processes procs = procs
    unfold kill_leftover_chrome_processes
    refine List.filter_eq_self.mpr ?_
    intro q hq
    simp [hall q hq]
  · intro queue hq
    unfold worker_finish_task cleanup_leftover_chrome
    have : queue.isEmpty = false := by
      cases queue with
      | nil => exact absurd rfl hq
      | cons a rest => rfl
    rw [this]
    rfl
  · intro q hq
    have := List.of_mem_filter hq
    simpa using this

theorem cleanup_after_task_witness :
    (["ConnectivityCheck"] ≠ ([] : List String)) ∧
    worker_finish_task ["ConnectivityCheck"] [⟨7, "chrome", "/usr/bin/google-chrome"⟩]
      = [⟨7, "chrome", "/usr/bin/google-chrome"⟩] :=
  ⟨by decide,
    (cleanup_after_task [⟨7, "chrome", "/usr/bin/google-chrome"⟩]).2.2.1
      ["ConnectivityCheck"] (by decide)⟩

/-- C8 counterexample: running add, add, remove(2), add from an empty store
assigns the ids 1, 2, 2 in that order — the third add re-assigns id 2, which
was already assigned earlier in the sequence, so identifiers are not
monotonically assigned across the whole operation sequence. -/
theorem console_id_reuse_counterexample :
    ((runConsoleOps reuseOps []).2.map Prod.fst) = [1, 2, 2] ∧
    ¬ List.Chain' (fun a b => a < b) ((runConsoleOps reuseOps []).2.map Prod.fst) := by
  constructor
  · decide
  · intro hch
    rw [show ((runConsoleOps reuseOps []).2.map Prod.fst) = [1, 2, 2] by decide] at hch
    rcases List.chain'_cons.mp hch with ⟨h12, hch2⟩
    rcases List.chain'_cons.mp hch2 with ⟨h22, _⟩
    omega

/-- Every member of a list of naturals is bounded by its max-fold. -/
theorem le_foldr_max (l : List Nat) : ∀ j ∈ l, j ≤ l.foldr max 0 := by
  induction l with
  | nil => intro j hj; simp at hj
  | cons a rest ih =>
    intro j hj
    rcases List.mem_cons.mp hj with h | h
    · subst h
      exact le_max_left _ _
    · exact le_trans (ih j h) (le_max_right _ _)

/-- C8 (amended): every identifier assigned by `add_console` is strictly greater
than every identifier stored at the moment of assignment — hence distinct from
all currently stored identifiers — but identifiers of removed consoles may be
re-assigned later in the sequence. -/
theorem console_id_fresh (ops : List ConsoleOp) (start : List Console) :
    ∀ pr ∈ (runConsoleOps ops start).2, ∀ j ∈ pr.2, j < pr.1 := by
  induction ops generalizing start with
  | nil => intro pr hpr; simp [runConsoleOps] at hpr
  | cons op rest ih =>
    cases op with
    | add n u =>
      intro pr hpr j hj
      simp only [runConsoleOps] at hpr
      rcases List.mem_append.mp hpr with h | h
      · by_cases hemp : n = "" ∨ u = ""
        · simp [add_console, hemp] at h
        · simp only [add_console, if_neg hemp] at h
          simp at h
          rw [h] at hj ⊢
          have := le_foldr_max (start.map (fun c => c.id)) j hj
          omega
      · exact ih _ pr h j hj
    | remove cid =>
      intro pr hpr
      simp only [runConsoleOps] at hpr
      exact ih _ pr hpr

theorem console_id_fresh_witness :
    ((2 : Nat), ([1] : List Nat)) ∈ (runConsoleOps reuseOps []).2 ∧ (1 : Nat) < 2 :=
  ⟨by decide,
    console_id_fresh reuseOps [] ((2 : Nat), ([1] : List Nat)) (by decide) 1 (by decide)⟩

/-- C9: the published seconds-remaining is never negative; an overdue trigger
(negative delta) publishes exactly 0 seconds, and its string field is "N/A"
rather than any negative rendering. -/
theorem next_backup_nonneg (delta : Option Int) :
    0 ≤ (status_next_backup delta).1 ∧
    (∀ d : Int, delta = some d → d < 0 →
      (status_next_backup delta).1 = 0 ∧ (status_next_backup delta).2 = "N/A") := by
  cases delta with
  | none =>
    refine ⟨le_refl 0, ?_⟩
    intro d h
    simp at h
  | some d =>
    constructor
    · by_cases h : d < 0 <;> (simp [status_next_backup, h]; try omega)
    · intro d2 h hneg
      have hd : d2 = d := by injection h with h; exact h.symm
      subst hd
      have e1 : (status_next_backup (some d2)).1 = (if d2 < 0 then (0 : Int) else d2) := rfl
      have e2 : (status_next_backup (some d2)).2 = format_timedelta d2 := rfl
      rw [e1, e2, if_pos hneg]
      refine ⟨rfl, ?_⟩
      unfold format_timedelta
      rw [if_pos hneg]

theorem next_backup_nonneg_witness :
    (status_next_backup (some (-5))).1 = 0 ∧
    (status_next_backup (some (-5))).2 = "N/A" :=
  (next_backup_nonneg (some (-5))).2 (-5) rfl (by decide)
